import Mathlib

/-!
Verification development for the math-genealogy analysis pipeline
(`src/main.py`).  The Python program is shallowly embedded: JSON documents
become the inductive `Json`, Python dict/list accesses become total Lean
functions with the same default-on-absence semantics, the stateful loops of
`main` become folds, and exception-raising code returns `Except`.
-/

namespace MathGenealogy

/-- JSON documents, as produced by the remote directory service and the
Python `json` module.  Numbers are modelled as integers (the fields the
pipeline reads — ids and descendant counts — are integral). -/
inductive Json where
  | null : Json
  | bool (b : Bool) : Json
  | num (n : Int) : Json
  | str (s : String) : Json
  | arr (elems : List Json) : Json
  | obj (fields : List (String × Json)) : Json

mutual

/-- Decidable equality of JSON documents. -/
def Json.decEq : (a b : Json) → Decidable (a = b)
  | .null, .null => isTrue rfl
  | .null, .bool _ => isFalse nofun
  | .null, .num _ => isFalse nofun
  | .null, .str _ => isFalse nofun
  | .null, .arr _ => isFalse nofun
  | .null, .obj _ => isFalse nofun
  | .bool _, .null => isFalse nofun
  | .bool x, .bool y => decidable_of_iff (x = y) (by simp)
  | .bool _, .num _ => isFalse nofun
  | .bool _, .str _ => isFalse nofun
  | .bool _, .arr _ => isFalse nofun
  | .bool _, .obj _ => isFalse nofun
  | .num _, .null => isFalse nofun
  | .num _, .bool _ => isFalse nofun
  | .num x, .num y => decidable_of_iff (x = y) (by simp)
  | .num _, .str _ => isFalse nofun
  | .num _, .arr _ => isFalse nofun
  | .num _, .obj _ => isFalse nofun
  | .str _, .null => isFalse nofun
  | .str _, .bool _ => isFalse nofun
  | .str _, .num _ => isFalse nofun
  | .str x, .str y => decidable_of_iff (x = y) (by simp)
  | .str _, .arr _ => isFalse nofun
  | .str _, .obj _ => isFalse nofun
  | .arr _, .null => isFalse nofun
  | .arr _, .bool _ => isFalse nofun
  | .arr _, .num _ => isFalse nofun
  | .arr _, .str _ => isFalse nofun
  | .arr as, .arr bs =>
    match Json.decEqList as bs with
    | isTrue h => isTrue (by rw [h])
    | isFalse h => isFalse (fun he => by cases he; exact h rfl)
  | .arr _, .obj _ => isFalse nofun
  | .obj _, .null => isFalse nofun
  | .obj _, .bool _ => isFalse nofun
  | .obj _, .num _ => isFalse nofun
  | .obj _, .str _ => isFalse nofun
  | .obj _, .arr _ => isFalse nofun
  | .obj as, .obj bs =>
    match Json.decEqFields as bs with
    | isTrue h => isTrue (by rw [h])
    | isFalse h => isFalse (fun he => by cases he; exact h rfl)

/-- Decidable equality of JSON arrays. -/
def Json.decEqList : (a b : List Json) → Decidable (a = b)
  | [], [] => isTrue rfl
  | [], _ :: _ => isFalse nofun
  | _ :: _, [] => isFalse nofun
  | a :: as, b :: bs =>
    match Json.decEq a b, Json.decEqList as bs with
    | isTrue h1, isTrue h2 => isTrue (by rw [h1, h2])
    | isFalse h1, _ => isFalse (fun he => by cases he; exact h1 rfl)
    | _, isFalse h2 => isFalse (fun he => by cases he; exact h2 rfl)

/-- Decidable equality of JSON object field lists. -/
def Json.decEqFields : (a b : List (String × Json)) → Decidable (a = b)
  | [], [] => isTrue rfl
  | [], _ :: _ => isFalse nofun
  | _ :: _, [] => isFalse nofun
  | (k1, v1) :: as, (k2, v2) :: bs =>
    match instDecidableEqString k1 k2, Json.decEq v1 v2, Json.decEqFields as bs with
    | isTrue h0, isTrue h1, isTrue h2 => isTrue (by rw [h0, h1, h2])
    | isFalse h0, _, _ => isFalse (fun he => by cases he; exact h0 rfl)
    | _, isFalse h1, _ => isFalse (fun he => by cases he; exact h1 rfl)
    | _, _, isFalse h2 => isFalse (fun he => by cases he; exact h2 rfl)

end

instance : DecidableEq Json := Json.decEq

/-- Python `key in d` for a dict-shaped document (`False` on non-dicts,
which the pipeline never feeds to a membership test). -/
def Json.hasKey (j : Json) (key : String) : Bool :=
  match j with
  | .obj fields => fields.any (fun p => decide (p.1 = key))
  | _ => false

/-- Python `d.get(key, default)`; non-dict receivers yield the default
(the pipeline only calls `.get` on dict-shaped values). -/
def Json.getD (j : Json) (key : String) (d : Json) : Json :=
  match j with
  | .obj fields =>
    match fields.find? (fun p => decide (p.1 = key)) with
    | some p => p.2
    | none => d
  | _ => d

/-- Iterating a value expected to be a JSON array (`for x in v`). -/
def Json.asArr : Json → List Json
  | .arr l => l
  | _ => []

/-- Iterating a value expected to be a JSON object (`for k, v in d.items()`). -/
def Json.asObj : Json → List (String × Json)
  | .obj m => m
  | _ => []

/-- Python truthiness of a JSON value (`if result:` / `if not advisees`). -/
def pythonTruthy : Json → Bool
  | .null => false
  | .bool b => b
  | .num n => n != 0
  | .str s => !s.isEmpty
  | .arr l => !l.isEmpty
  | .obj m => !m.isEmpty

/-- Python `int(...)`-typed field read: the pipeline compares
`descendant_count` as an integer; non-numeric values do not occur for this
field upstream and are read as 0. -/
def Json.toInt : Json → Int
  | .num n => n
  | _ => 0

/-- Python exceptions relevant to the pipeline.  `valueError` is the
`ValueError("None cannot be a node")` networkx raises for a `None`
endpoint. -/
inductive PyError where
  | fileNotFoundError : PyError
  | jsonDecodeError : PyError
  | connectionError : PyError
  | httpError (status : Nat) : PyError
  | valueError : PyError
deriving DecidableEq

/-- `extract_advisor_info`: walks every degree entry's `advised by`
mapping, appending its `(advisor_id, advisor_name)` items. -/
def extract_advisor_info (academic_data : Json) : List (String × Json) :=
  if academic_data.hasKey "MGP_academic" then
    let student_data := (academic_data.getD "MGP_academic" .null).getD "student_data" (.obj [])
    let degrees := (student_data.getD "degrees" (.arr [])).asArr
    degrees.foldl (fun advisors degree => advisors ++ (degree.getD "advised by" (.obj [])).asObj) []
  else []

/-- `academic.get('ID')` for a record, as used in the graph-building loop
(`None`, i.e. `null`, when the key is absent). -/
def subject_id (data : Json) : Json :=
  (data.getD "MGP_academic" .null).getD "ID" .null

/-- A `networkx.DiGraph`: node list in insertion order, directed edge list
in insertion order (both duplicate-free by construction of `add_edge`). -/
structure DiGraph where
  nodes : List Json
  edges : List (Json × Json)
deriving DecidableEq

def DiGraph.empty : DiGraph := ⟨[], []⟩

/-- Node insertion as performed inside `G.add_edge` once the endpoints
have passed networkx's `None` rejection (so `v` is never `None` here). -/
def addNode (g : DiGraph) (v : Json) : DiGraph :=
  if v ∈ g.nodes then g else { g with nodes := g.nodes ++ [v] }

/-- `G.add_edge(u, v)`: networkx raises `ValueError("None cannot be a
node")` when either endpoint is `None` (a `None` node can never already
exist, so the check always fires); otherwise it inserts both endpoints
as nodes and then the directed edge, idempotently.  (Node insertion
leaves the edge list untouched, so the duplicate test reads `g.edges`
directly.) -/
def add_edge (g : DiGraph) (u v : Json) : Except PyError DiGraph :=
  if u = Json.null ∨ v = Json.null then .error .valueError
  else .ok (if (u, v) ∈ g.edges then addNode (addNode g u) v
            else ⟨(addNode (addNode g u) v).nodes, g.edges ++ [(u, v)]⟩)

/-- The inner advisor loop of the graph construction: one `G.add_edge`
per extracted link; an exception aborts the loop and propagates. -/
def add_edges_loop (sid : Json) : List (String × Json) → DiGraph → Except PyError DiGraph
  | [], g => .ok g
  | p :: rest, g =>
    match add_edge g (.str p.1) sid with
    | .ok g1 => add_edges_loop sid rest g1
    | .error e => .error e

/-- One iteration of the graph-construction loop in `main` (one record). -/
def build_step (g : DiGraph) (data : Json) : Except PyError DiGraph :=
  if data.hasKey "MGP_academic" then
    add_edges_loop (subject_id data) (extract_advisor_info data) g
  else .ok g

/-- The record loop of the graph construction; an exception aborts the
whole loop (and, in `main`, the run) and propagates. -/
def build_loop : List Json → DiGraph → Except PyError DiGraph
  | [], g => .ok g
  | data :: rest, g =>
    match build_step g data with
    | .ok g1 => build_loop rest g1
    | .error e => .error e

/-- The graph-construction loop in `main`: for every record with the
academic substructure, `G.add_edge(advisor_id, student_id)` for each
extracted advisor link — unguarded, so a `None` subject id makes
networkx raise and the run abort. -/
def build_graph (records : List Json) : Except PyError DiGraph :=
  build_loop records .empty

/-- Presence of an undirected edge between `u` and `v` after
`G.to_undirected()`. -/
def hasUndirectedEdge (g : DiGraph) (u v : Json) : Bool :=
  decide ((u, v) ∈ g.edges) || decide ((v, u) ∈ g.edges)

/-- `nx.isolates(G_undirected)`: nodes with no incident edge at all. -/
def isolated_nodes (g : DiGraph) : List Json :=
  g.nodes.filter (fun v => !(g.edges.any (fun e => decide (e.1 = v) || decide (e.2 = v))))

/-- Degree of `v` in the undirected projection, counted as the number of
incident directed edges (zero iff no relationship touches `v`). -/
def undirected_degree (g : DiGraph) (v : Json) : Nat :=
  g.edges.countP (fun e => decide (e.1 = v) || decide (e.2 = v))

/-- One breadth step of connected-component exploration over the
undirected projection. -/
def expandStep (g : DiGraph) (s : List Json) : List Json :=
  g.nodes.filter (fun v => decide (v ∈ s) || s.any (fun u => hasUndirectedEdge g u v))

/-- Connected component of `v` (fixpoint of `expandStep`, reached after at
most `|nodes|` steps). -/
def reachSet (g : DiGraph) (v : Json) : List Json :=
  (expandStep g)^[g.nodes.length] [v]

/-- `nx.connected_components(G_undirected)`: one component per node in
discovery order, each emitted once. -/
def components (g : DiGraph) : List (List Json) :=
  g.nodes.foldl (fun acc v => if acc.any (fun c => decide (v ∈ c)) then acc else acc ++ [reachSet g v]) []

/-- Comparison used by `sorted(components, key=len, reverse=True)`. -/
def cmpLen (a b : List Json) : Prop := b.length ≤ a.length

instance : DecidableRel cmpLen := fun a b => Nat.decLe b.length a.length

/-- `sorted(components, key=len, reverse=True)` (Python's sort is stable;
`List.insertionSort` with this relation is the stable descending sort). -/
def components_sorted (g : DiGraph) : List (List Json) :=
  List.insertionSort cmpLen (components g)

/-- `components_sorted[0]` (the empty list for an empty graph; `main` only
reads it when the graph is non-empty). -/
def largest_component (g : DiGraph) : List Json :=
  (components_sorted g).headD []

/-- `len(G_undirected)`. -/
def num_nodes (g : DiGraph) : Nat := g.nodes.length

/-- `len(largest_component) / len(G_undirected) > 0.5`, the giant-component
test of `main` (exact rational arithmetic; the float quotient is exact for
all realistic sizes). -/
def is_giant_component (g : DiGraph) : Prop :=
  (1 : ℚ) / 2 < ((largest_component g).length : ℚ) / (num_nodes g : ℚ)

instance (g : DiGraph) : Decidable (is_giant_component g) := by
  unfold is_giant_component
  infer_instance

/-! ### Cache (`save_cache` / `load_cache`) -/

/-- State of the cache file on disk. -/
inductive FileState where
  | missing : FileState
  | content (text : String) : FileState
deriving DecidableEq

def lbrace : Char := Char.ofNat 123

def rbrace : Char := Char.ofNat 125

def isWsChar (c : Char) : Bool :=
  c = ' ' || c = '\n' || c = '\t' || c = '\r'

def skipWs : List Char → List Char
  | [] => []
  | c :: rest => if isWsChar c then skipWs rest else c :: rest

/-- Reads a run of decimal digits, accumulating their value. -/
def readDigits (acc : Nat) : List Char → Nat × List Char
  | c :: rest => if c.isDigit then readDigits (acc * 10 + (c.toNat - 48)) rest else (acc, c :: rest)
  | [] => (acc, [])

/-- Parses an integer literal (optional leading minus). -/
def parseNum : List Char → Option (Json × List Char)
  | '-' :: c :: rest =>
    if c.isDigit then
      let p := readDigits 0 (c :: rest)
      some (.num (-(p.1 : Int)), p.2)
    else none
  | c :: rest =>
    if c.isDigit then
      let p := readDigits 0 (c :: rest)
      some (.num (p.1 : Int), p.2)
    else none
  | [] => none

/-- Parses the remainder of a string literal, the opening quote already
consumed (escape sequences are not needed by the cache payloads). -/
def parseStringChars : List Char → Option (List Char × List Char)
  | [] => none
  | c :: rest =>
    if c = '"' then some ([], rest)
    else
      match parseStringChars rest with
      | some p => some (c :: p.1, p.2)
      | none => none

mutual

/-- Modelled from the Python standard `json` library (external to this
repository): a recursive-descent JSON reader; `none` is a
`json.JSONDecodeError`.  Fuel bounds the nesting depth. -/
def parseValue : Nat → List Char → Option (Json × List Char)
  | 0, _ => none
  | fuel + 1, input =>
    match skipWs input with
    | [] => none
    | c :: rest =>
      if c = 'n' then
        match rest with
        | 'u' :: 'l' :: 'l' :: r => some (.null, r)
        | _ => none
      else if c = 't' then
        match rest with
        | 'r' :: 'u' :: 'e' :: r => some (.bool true, r)
        | _ => none
      else if c = 'f' then
        match rest with
        | 'a' :: 'l' :: 's' :: 'e' :: r => some (.bool false, r)
        | _ => none
      else if c = '"' then
        match parseStringChars rest with
        | some p => some (.str (String.mk p.1), p.2)
        | none => none
      else if c = '[' then
        match skipWs rest with
        | [] => none
        | d :: r =>
          if d = ']' then some (.arr [], r)
          else
            match parseItems fuel (d :: r) with
            | some p => some (.arr p.1, p.2)
            | none => none
      else if c = lbrace then
        match skipWs rest with
        | [] => none
        | d :: r =>
          if d = rbrace then some (.obj [], r)
          else
            match parseFields fuel (d :: r) with
            | some p => some (.obj p.1, p.2)
            | none => none
      else if c.isDigit || c = '-' then parseNum (c :: rest)
      else none

/-- Comma-separated array items up to the closing bracket. -/
def parseItems : Nat → List Char → Option (List Json × List Char)
  | 0, _ => none
  | fuel + 1, input =>
    match parseValue fuel input with
    | some p =>
      match skipWs p.2 with
      | [] => none
      | d :: r =>
        if d = ',' then
          match parseItems fuel r with
          | some q => some (p.1 :: q.1, q.2)
          | none => none
        else if d = ']' then some ([p.1], r)
        else none
    | none => none

/-- Comma-separated object fields up to the closing brace. -/
def parseFields : Nat → List Char → Option (List (String × Json) × List Char)
  | 0, _ => none
  | fuel + 1, input =>
    match skipWs input with
    | [] => none
    | d :: r =>
      if d = '"' then
        match parseStringChars r with
        | some pk =>
          match skipWs pk.2 with
          | [] => none
          | e :: r2 =>
            if e = ':' then
              match parseValue fuel r2 with
              | some pv =>
                match skipWs pv.2 with
                | [] => none
                | d2 :: r4 =>
                  if d2 = ',' then
                    match parseFields fuel r4 with
                    | some pm => some ((String.mk pk.1, pv.1) :: pm.1, pm.2)
                    | none => none
                  else if d2 = rbrace then some ([(String.mk pk.1, pv.1)], r4)
                  else none
              | none => none
            else none
        | none => none
      else none

end

/-- `json.load` on the text of the cache file: the parsed document, or a
`JSONDecodeError` for unreadable content. -/
def json_loads (s : String) : Except PyError Json :=
  match parseValue (s.length + 1) s.data with
  | some p => if (skipWs p.2).isEmpty then .ok p.1 else .error .jsonDecodeError
  | none => .error .jsonDecodeError

/-- `load_cache`: opens the cache file and parses it.  Only
`FileNotFoundError` is caught (returning `None`); any other exception —
in particular a `JSONDecodeError` from corrupt content — propagates. -/
def load_cache (fs : FileState) : Except PyError (Option Json) :=
  match fs with
  | .missing => .ok none
  | .content s =>
    match json_loads s with
    | .ok j => .ok (some j)
    | .error e => .error e

def escapeChar (c : Char) : List Char :=
  if c = '"' then ['\\', '"']
  else if c = '\\' then ['\\', '\\']
  else if c = '\n' then ['\\', 'n']
  else if c = '\t' then ['\\', 't']
  else if c = '\r' then ['\\', 'r']
  else [c]

/-- A JSON string literal as written by `json.dump(..., ensure_ascii=False)`. -/
def dumpsString (s : String) : String :=
  String.mk ('"' :: s.data.foldr (fun c acc => escapeChar c ++ acc) ['"'])

def spaces (n : Nat) : String :=
  String.mk (List.replicate n ' ')

mutual

/-- Modelled from the Python standard `json` library (external to this
repository): the text `json.dump(data, f, ensure_ascii=False, indent=2)`
writes, at a given indentation level. -/
def dumpsVal : Json → Nat → String
  | .null, _ => "null"
  | .bool true, _ => "true"
  | .bool false, _ => "false"
  | .num n, _ => toString n
  | .str s, _ => dumpsString s
  | .arr [], _ => "[]"
  | .arr (x :: xs), level =>
    "[\n" ++ dumpsItems (x :: xs) (level + 2) ++ "\n" ++ spaces level ++ "]"
  | .obj [], _ => "\x7b\x7d"
  | .obj (f :: fs), level =>
    "\x7b\n" ++ dumpsFields (f :: fs) (level + 2) ++ "\n" ++ spaces level ++ "\x7d"

/-- Indented, comma-separated serialization of array items. -/
def dumpsItems : List Json → Nat → String
  | [], _ => ""
  | [x], level => spaces level ++ dumpsVal x level
  | x :: y :: xs, level =>
    spaces level ++ dumpsVal x level ++ ",\n" ++ dumpsItems (y :: xs) level

/-- Indented, comma-separated serialization of object fields. -/
def dumpsFields : List (String × Json) → Nat → String
  | [], _ => ""
  | [(k, v)], level => spaces level ++ dumpsString k ++ ": " ++ dumpsVal v level
  | (k, v) :: f :: fs, level =>
    spaces level ++ dumpsString k ++ ": " ++ dumpsVal v level ++ ",\n" ++ dumpsFields (f :: fs) level

end

/-- The full serialization `save_cache` writes. -/
def json_dump_text (data : Json) : String :=
  dumpsVal data 0

/-- The sequence of cache-file contents observable while `save_cache`
runs: `open(filename, 'w')` first truncates the file, then `json.dump`
writes the serialization front to back, so after `k` written characters
the file holds exactly the first `k` characters of the serialization. -/
def save_cache_write_states (data : Json) : List FileState :=
  (List.range ((json_dump_text data).length + 1)).map
    (fun k => .content (String.mk ((json_dump_text data).data.take k)))

/-! ### Acquisition (`fetch_*`) -/

/-- `fetch_mathematician_parallel`: one worker's fetch; every exception is
caught and becomes `None`. -/
def fetch_mathematician_parallel (f : String → Except PyError Json) (mgp_id : String) : Option Json :=
  match f mgp_id with
  | .ok d => some d
  | .error _ => none

/-- `fetch_all_mathematicians_parallel`: results are collected in
completion order (`as_completed`), modelled by an explicit `order` list (a
permutation of the submitted ids); `if result:` keeps only truthy
payloads. -/
def fetch_all_mathematicians_parallel (f : String → Except PyError Json) (order : List String) : List Json :=
  order.filterMap (fun i =>
    match fetch_mathematician_parallel f i with
    | some result => if pythonTruthy result then some result else none
    | none => none)

/-- The sequential fallback loop of `main`: per-id try/except, appending
every successfully fetched payload. -/
def fetch_sequential (f : String → Except PyError Json) (ids : List String) : List Json :=
  ids.filterMap (fun i =>
    match f i with
    | .ok data => some data
    | .error _ => none)

/-! ### Ranking (`advisor_count` / `advisor_names` / `most_common`, max descendants) -/

/-- `advisor_count[advisor_id] += 1` on a `Counter` held as an association
list in key-insertion order (Python dicts preserve insertion order). -/
def counter_add (c : List (String × Nat)) (k : String) : List (String × Nat) :=
  if c.any (fun p => decide (p.1 = k)) then
    c.map (fun p => if p.1 = k then (p.1, p.2 + 1) else p)
  else c ++ [(k, 1)]

/-- `advisor_names[advisor_id] = advisor_name`: dict assignment keeps the
key's original position and overwrites the value. -/
def names_add (m : List (String × Json)) (k : String) (v : Json) : List (String × Json) :=
  if m.any (fun p => decide (p.1 = k)) then
    m.map (fun p => if p.1 = k then (p.1, v) else p)
  else m ++ [(k, v)]

/-- The advisor-leaderboard accumulation loop of `main`. -/
def advisor_stats (records : List Json) : List (String × Nat) × List (String × Json) :=
  records.foldl (fun acc data =>
    (extract_advisor_info data).foldl
      (fun acc p => (counter_add acc.1 p.1, names_add acc.2 p.1 p.2)) acc)
    ([], [])

/-- `Counter.__getitem__` (0 for a missing key). -/
def counter_get (c : List (String × Nat)) (k : String) : Nat :=
  match c.find? (fun p => decide (p.1 = k)) with
  | some p => p.2
  | none => 0

/-- `advisor_names.get(advisor_id)`. -/
def names_get (m : List (String × Json)) (k : String) : Option Json :=
  (m.find? (fun p => decide (p.1 = k))).map Prod.snd

/-- Comparison used by `Counter.most_common` (count, descending). -/
def cmpCount (a b : String × Nat) : Prop := b.2 ≤ a.2

instance : DecidableRel cmpCount := fun a b => Nat.decLe b.2 a.2

instance : IsTotal (String × Nat) cmpCount := ⟨fun a b => Nat.le_total b.2 a.2⟩

instance : IsTrans (String × Nat) cmpCount := ⟨fun _ _ _ h1 h2 => le_trans h2 h1⟩

/-- `Counter.most_common(n)`: documented as
`sorted(items, key=count, reverse=True)[:n]` — a stable descending sort
(ties keep insertion order) truncated to `n`. -/
def most_common (c : List (String × Nat)) (n : Nat) : List (String × Nat) :=
  (List.insertionSort cmpCount c).take n

/-- The flattened multiset of advisor links, in encounter order. -/
def all_advisor_links (records : List Json) : List (String × Json) :=
  records.flatMap extract_advisor_info

/-- Keys in order of first occurrence (the insertion order of a Python
dict populated by repeated updates). -/
def first_seen_keys (ks : List String) : List String :=
  ks.foldl (fun acc k => if k ∈ acc then acc else acc ++ [k]) []

/-- `descendant_count` of a record (0 when absent, as `.get(..., 0)`). -/
def descendant_count_of (data : Json) : Int :=
  ((((data.getD "MGP_academic" .null).getD "student_data" (.obj [])).getD
      "descendants" (.obj [])).getD "descendant_count" (.num 0)).toInt

/-- One iteration of the max-descendants loop of `main`. -/
def max_desc_step (acc : Int × Option Json) (data : Json) : Int × Option Json :=
  if data.hasKey "MGP_academic" then
    if acc.1 < descendant_count_of data then
      (descendant_count_of data, some (data.getD "MGP_academic" .null))
    else acc
  else acc

/-- The max-descendants loop: starts at `max_descendants = 0`,
`top_mathematician = None`, updates on strictly greater counts. -/
def max_descendants_scan (records : List Json) : Int × Option Json :=
  records.foldl max_desc_step (0, none)

/-- The contribution of a record to the max-descendants loop (records
without the academic substructure are skipped, i.e. contribute 0). -/
def record_count (data : Json) : Int :=
  if data.hasKey "MGP_academic" then descendant_count_of data else 0

/-! ### Degenerate-node classification (`no_advisees`) -/

/-- The raw `advisees` value of a record (`{}` when absent). -/
def advisees_of (data : Json) : Json :=
  (((data.getD "MGP_academic" .null).getD "student_data" (.obj [])).getD
      "descendants" (.obj [])).getD "advisees" (.obj [])

/-- The test of the `no_advisees` loop:
`not advisees or (isinstance(advisees, list) and len(advisees) == 1 and advisees[0] == "")`. -/
def no_advisees_cond (advisees : Json) : Bool :=
  !(pythonTruthy advisees) ||
    (match advisees with
     | .arr [x] => decide (x = .str "")
     | _ => false)

/-- The `no_advisees` accumulation loop of `main`. -/
def no_advisees (records : List Json) : List Json :=
  records.foldl (fun acc data =>
    if data.hasKey "MGP_academic" then
      if no_advisees_cond (advisees_of data) then acc ++ [subject_id data] else acc
    else acc) []

/-- Spec-side notion for C9: the advisee value is a collection (mapping or
list). -/
def isCollection : Json → Prop
  | .arr _ => True
  | .obj _ => True
  | _ => False

/-- Spec-side notion for C9: the advisee collection is empty. -/
def isEmptyCollection (a : Json) : Prop :=
  a = .arr [] ∨ a = .obj []

/-! ### Concrete test fixtures -/

/-- A record with the academic substructure and one advisor link, but no
`ID` key, so `academic.get('ID')` is `None`. -/
def c1_record : Json :=
  .obj [("MGP_academic", .obj [("student_data", .obj [("degrees",
    .arr [.obj [("advised by", .obj [("17", .str "Alice")])]])])])]

/-- A well-formed record: subject id `"42"`, advised by `"17"`. -/
def c1_record_with_id : Json :=
  .obj [("MGP_academic", .obj [("ID", .str "42"), ("student_data", .obj [("degrees",
    .arr [.obj [("advised by", .obj [("17", .str "Alice")])]])])])]

/-- A record with subject id `"S"` and an empty-string advisor id: the
empty string is present (not absent) and is a legal networkx node. -/
def c1_empty_id_record : Json :=
  .obj [("MGP_academic", .obj [("ID", .str "S"), ("student_data", .obj [("degrees",
    .arr [.obj [("advised by", .obj [("", .str "Anon")])]])])])]

/-- A synthetic record in the upstream schema: given subject id, advisor
links and direct advisees. -/
def mk_scenario_record (id : String) (advisors : List (String × Json))
    (advisees : List (String × Json)) : Json :=
  .obj [("MGP_academic", .obj [
    ("ID", .str id),
    ("student_data", .obj [
      ("degrees", .arr [.obj [("advised by", .obj advisors)]]),
      ("descendants", .obj [
        ("advisees", .obj advisees),
        ("descendant_count", .num (advisees.length : Int))])])])]

/-- The spec's five-record end-to-end scenario: A advised B and C, B
advised D, E is fully disconnected. -/
def scenario_records : List Json :=
  [mk_scenario_record "A" [] [("B", .str "B"), ("C", .str "C")],
   mk_scenario_record "B" [("A", .str "A")] [("D", .str "D")],
   mk_scenario_record "C" [("A", .str "A")] [],
   mk_scenario_record "D" [("B", .str "B")] [],
   mk_scenario_record "E" [] []]

/-- A fetcher whose lookup of id `"X"` fails with a transport error. -/
def c4_fetcher : String → Except PyError Json := fun i =>
  if i = "X" then .error .connectionError
  else .ok (.obj [("MGP_academic", .obj [("ID", .str i)])])

/-- A small cache snapshot. -/
def c5_snapshot : Json :=
  .obj [("ids", .arr [.num 1]), ("data", .arr []), ("timestamp", .num 5)]

/-- Four nodes, two components of size two: largest component is exactly
50% of the nodes. -/
def c6_half_graph : DiGraph :=
  ⟨[.str "a", .str "b", .str "c", .str "d"],
   [(.str "a", .str "b"), (.str "c", .str "d")]⟩

/-- Four nodes, components of sizes three and one: largest component is
50% plus one node. -/
def c6_majority_graph : DiGraph :=
  ⟨[.str "a", .str "b", .str "c", .str "d"],
   [(.str "a", .str "b"), (.str "a", .str "c")]⟩

/-- A record contributing a single advisor link for `aid`. -/
def c7_rec (aid : String) : Json :=
  .obj [("MGP_academic", .obj [("student_data", .obj [("degrees",
    .arr [.obj [("advised by", .obj [(aid, .str aid)])]])])])]

/-- Advisors X and Y with three advisee occurrences each, X encountered
first. -/
def c7_records : List Json :=
  [c7_rec "X", c7_rec "X", c7_rec "X", c7_rec "Y", c7_rec "Y", c7_rec "Y"]

/-- A record with the academic substructure and `descendant_count` 0. -/
def c8_zero_record : Json :=
  .obj [("MGP_academic", .obj [("ID", .num 1), ("given_name", .str "Ana")])]

/-- A record with `descendant_count` 5. -/
def c8_top_record : Json :=
  .obj [("MGP_academic", .obj [("ID", .num 2), ("student_data", .obj [
    ("descendants", .obj [("descendant_count", .num 5)])])])]

/-- A later record tied at `descendant_count` 5. -/
def c8_tied_record : Json :=
  .obj [("MGP_academic", .obj [("ID", .num 3), ("student_data", .obj [
    ("descendants", .obj [("descendant_count", .num 5)])])])]

/-- A fetcher whose lookup of id `"X"` succeeds with an empty (falsy)
JSON object. -/
def c10_fetcher : String → Except PyError Json := fun i =>
  if i = "X" then .ok (.obj [])
  else .ok (.obj [("MGP_academic", .obj [("ID", .str i)])])

/-! ## Theorems

One theorem (plus counterexample/witness where applicable) per claim of
the specification, with shared helper lemmas. -/

/-- C2 (counterexample): `load_cache` does raise on corrupt cache content
— a truncated JSON document makes it propagate a `JSONDecodeError`
instead of returning the cache-miss value. -/
theorem c2_load_cache_raises_counterexample :
    load_cache (.content "\x7b\"ids\": ") = .error .jsonDecodeError ∧
    ∀ j : Option Json, load_cache (.content "\x7b\"ids\": ") ≠ .ok j := by
  constructor
  · rfl
  · intro j h
    rw [show load_cache (.content "\x7b\"ids\": ") = .error .jsonDecodeError from rfl] at h
    exact Except.noConfusion h

/-- C2 (amended): `load_cache` returns absent only for a missing file
(`FileNotFoundError` is the only caught exception); valid content loads,
and corrupt content propagates the `JSONDecodeError` to the caller. -/
theorem c2_load_cache_behavior :
    load_cache .missing = .ok none ∧
    (∀ (s : String) (j : Json), json_loads s = .ok j → load_cache (.content s) = .ok (some j)) ∧
    (∀ (s : String) (e : PyError), json_loads s = .error e → load_cache (.content s) = .error e) := by
  refine ⟨rfl, ?_, ?_⟩
  · intro s j h
    simp [load_cache, h]
  · intro s e h
    simp [load_cache, h]

/-- C2 witness: the amended behaviour at concrete file states. -/
theorem c2_load_cache_behavior_witness :
    load_cache (.content "[1, 2]") = .ok (some (.arr [.num 1, .num 2])) ∧
    load_cache (.content "nonsense") = .error .jsonDecodeError :=
  ⟨c2_load_cache_behavior.2.1 "[1, 2]" (.arr [.num 1, .num 2]) rfl,
   c2_load_cache_behavior.2.2 "nonsense" .jsonDecodeError rfl⟩

/-- C5 (counterexample): `save_cache` is not atomic — while saving a
snapshot the cache file passes through the truncated (empty) state, which
is neither the old nor the new content, and a load at that instant
raises. -/
theorem c5_save_not_atomic_counterexample :
    FileState.content "" ∈ save_cache_write_states c5_snapshot ∧
    FileState.content "" ≠ FileState.content (json_dump_text c5_snapshot) ∧
    load_cache (.content "") = .error .jsonDecodeError := by
  refine ⟨by decide, by decide, rfl⟩

/-- C5 (amended): `save_cache` writes in place: `open(..., 'w')` first
truncates the file and `json.dump` then writes front to back, so the
observable states are exactly the prefixes of the serialization, from the
empty file up to the complete snapshot — there is no atomic replace. -/
theorem c5_save_write_states :
    ∀ data : Json,
      (save_cache_write_states data).head? = some (.content "") ∧
      (save_cache_write_states data).getLast? = some (.content (json_dump_text data)) ∧
      ∀ st ∈ save_cache_write_states data,
        ∃ k, st = .content (String.mk ((json_dump_text data).data.take k)) := by
  intro data
  refine ⟨?_, ?_, ?_⟩
  · rw [save_cache_write_states, List.range_succ_eq_map]
    rfl
  · have hmap : ∀ (g : Nat → FileState) (n : Nat), List.map g [n] = [g n] := fun g n => rfl
    rw [save_cache_write_states, List.range_succ, List.map_append, hmap, List.getLast?_concat]
    have htake : (json_dump_text data).data.take (json_dump_text data).length =
        (json_dump_text data).data := List.take_length _
    rw [htake]
  · intro st hst
    rw [save_cache_write_states, List.mem_map] at hst
    obtain ⟨k, _, rfl⟩ := hst
    exact ⟨k, rfl⟩

/-- C5 witness: during the save of a concrete snapshot, the state holding
just the first serialized character is one of the observable prefixes. -/
theorem c5_save_write_states_witness :
    ∃ k, FileState.content "\x7b" =
      FileState.content (String.mk ((json_dump_text c5_snapshot).data.take k)) :=
  (c5_save_write_states c5_snapshot).2.2 (.content "\x7b") (by decide)

/-- C6: for every non-empty graph the giant-component test of `main` is
the strict `> 50%` comparison: it holds iff twice the largest component
exceeds the node count, and fails when the largest component is exactly
half the nodes. -/
theorem c6_giant_component_boundary :
    ∀ g : DiGraph, 0 < num_nodes g →
      (is_giant_component g ↔ 2 * (largest_component g).length > num_nodes g) ∧
      (2 * (largest_component g).length = num_nodes g → ¬ is_giant_component g) := by
  intro g hn
  have key : is_giant_component g ↔ num_nodes g < 2 * (largest_component g).length := by
    unfold is_giant_component
    have hn' : (0 : ℚ) < (num_nodes g : ℚ) := by exact_mod_cast hn
    rw [div_lt_div_iff₀ (by norm_num) hn']
    constructor
    · intro h
      have h2 : ((num_nodes g : ℚ)) < 2 * ((largest_component g).length : ℚ) := by nlinarith
      exact_mod_cast h2
    · intro h
      have h2 : ((num_nodes g : ℚ)) < 2 * ((largest_component g).length : ℚ) := by exact_mod_cast h
      nlinarith
  constructor
  · exact key
  · intro he hg
    rw [key] at hg
    omega

/-- C6 witness: at exactly 50% the test is false; at 50% plus one node it
is true. -/
theorem c6_giant_component_boundary_witness :
    ¬ is_giant_component c6_half_graph ∧ is_giant_component c6_majority_graph :=
  ⟨(c6_giant_component_boundary c6_half_graph (by decide)).2 (by decide),
   ((c6_giant_component_boundary c6_majority_graph (by decide)).1).mpr (by decide)⟩

/-- Helper for C9: length of the `no_advisees` accumulation over any
starting accumulator. -/
theorem no_advisees_foldl_length :
    ∀ (records : List Json) (acc : List Json),
      (records.foldl (fun acc data =>
          if data.hasKey "MGP_academic" then
            if no_advisees_cond (advisees_of data) then acc ++ [subject_id data] else acc
          else acc) acc).length
        = acc.length +
            records.countP (fun d => d.hasKey "MGP_academic" && no_advisees_cond (advisees_of d)) := by
  intro records
  induction records with
  | nil => intro acc; simp
  | cons d t ih =>
    intro acc
    rw [List.foldl_cons, List.countP_cons]
    by_cases h1 : d.hasKey "MGP_academic" = true
    · by_cases h2 : no_advisees_cond (advisees_of d) = true
      · simp [h1, h2, ih]
        omega
      · simp [h1, h2, ih]
    · simp [h1, ih]

/-- C9: a subject record is counted as having no advisees iff its raw
advisee collection is empty or is the single-element list `[""]`; in
particular `[""]` is counted exactly like an empty collection, and the
loop counts precisely the records satisfying this test. -/
theorem c9_no_advisees_condition :
    (∀ a : Json, isCollection a →
        (no_advisees_cond a = true ↔ (isEmptyCollection a ∨ a = .arr [.str ""]))) ∧
    no_advisees_cond (.arr [.str ""]) = no_advisees_cond (.arr []) ∧
    ∀ records : List Json,
      (no_advisees records).length =
        records.countP (fun d => d.hasKey "MGP_academic" && no_advisees_cond (advisees_of d)) := by
  refine ⟨?_, by decide, ?_⟩
  · intro a ha
    cases a with
    | null => exact ha.elim
    | bool b => exact ha.elim
    | num n => exact ha.elim
    | str s => exact ha.elim
    | arr l =>
      cases l with
      | nil => simp [no_advisees_cond, pythonTruthy, isEmptyCollection]
      | cons x t =>
        cases t with
        | nil => simp [no_advisees_cond, pythonTruthy, isEmptyCollection]
        | cons y t2 => simp [no_advisees_cond, pythonTruthy, isEmptyCollection]
    | obj m =>
      cases m with
      | nil => simp [no_advisees_cond, pythonTruthy, isEmptyCollection]
      | cons f t => simp [no_advisees_cond, pythonTruthy, isEmptyCollection]
  · intro records
    have h := no_advisees_foldl_length records []
    simpa [no_advisees] using h

/-- C9 witness: a non-empty advisee mapping is not counted. -/
theorem c9_no_advisees_condition_witness :
    no_advisees_cond (.obj [("77", .str "Bea")]) = true ↔
      (isEmptyCollection (.obj [("77", .str "Bea")]) ∨
        (Json.obj [("77", .str "Bea")]) = .arr [.str ""]) :=
  c9_no_advisees_condition.1 (.obj [("77", .str "Bea")]) trivial

/-- C10: the parallel acquisition keeps only truthy payloads — every
returned record is truthy, and an id whose fetch succeeded with a falsy
JSON payload is dropped from the result exactly as if it had failed. -/
theorem c10_parallel_drops_falsy :
    (∀ (f : String → Except PyError Json) (order : List String) (r : Json),
        r ∈ fetch_all_mathematicians_parallel f order → pythonTruthy r = true) ∧
    (∀ (f : String → Except PyError Json) (x : String) (j : Json),
        f x = .ok j → pythonTruthy j = false →
        ∀ l₁ l₂ : List String,
          fetch_all_mathematicians_parallel f (l₁ ++ x :: l₂) =
            fetch_all_mathematicians_parallel f (l₁ ++ l₂)) := by
  constructor
  · intro f order r hr
    rw [fetch_all_mathematicians_parallel, List.mem_filterMap] at hr
    obtain ⟨i, _, hi⟩ := hr
    cases hf : f i with
    | ok d =>
      simp [fetch_mathematician_parallel, hf] at hi
      obtain ⟨ht, rfl⟩ := hi
      exact ht
    | error e =>
      simp [fetch_mathematician_parallel, hf] at hi
  · intro f x j hfx hft l₁ l₂
    rw [fetch_all_mathematicians_parallel, fetch_all_mathematicians_parallel]
    rw [List.filterMap_append, List.filterMap_append, List.filterMap_cons]
    simp [fetch_mathematician_parallel, hfx, hft]

/-- C10 witness: id `"X"` fetches successfully but returns an empty
object; the parallel result with and without `"X"` coincide. -/
theorem c10_parallel_drops_falsy_witness :
    fetch_all_mathematicians_parallel c10_fetcher ["A", "X", "B"] =
      fetch_all_mathematicians_parallel c10_fetcher ["A", "B"] :=
  c10_parallel_drops_falsy.2 c10_fetcher "X" (.obj []) rfl rfl ["A"] ["B"]

/-- C4: in both acquisition modes the result holds only payloads resolved
from submitted ids, never exceeds the submission count, and a failing id
is dropped without affecting any other id's record — for the parallel
mode this holds for every completion order of the worker pool. -/
theorem c4_fetch_all_fault_isolation :
    ∀ (f : String → Except PyError Json) (ids order : List String),
      order.Perm ids →
      (fetch_all_mathematicians_parallel f order).length ≤ ids.length ∧
      (∀ r ∈ fetch_all_mathematicians_parallel f order, ∃ i ∈ ids, f i = .ok r) ∧
      (∀ i ∈ ids, ∀ r : Json, f i = .ok r → pythonTruthy r = true →
          r ∈ fetch_all_mathematicians_parallel f order) ∧
      (fetch_sequential f ids).length ≤ ids.length ∧
      (∀ r ∈ fetch_sequential f ids, ∃ i ∈ ids, f i = .ok r) ∧
      (∀ i ∈ ids, ∀ r : Json, f i = .ok r → r ∈ fetch_sequential f ids) := by
  intro f ids order hperm
  refine ⟨?_, ?_, ?_, ?_, ?_, ?_⟩
  · calc (fetch_all_mathematicians_parallel f order).length ≤ order.length :=
        List.length_filterMap_le _ _
      _ = ids.length := hperm.length_eq
  · intro r hr
    rw [fetch_all_mathematicians_parallel, List.mem_filterMap] at hr
    obtain ⟨i, hi, hm⟩ := hr
    refine ⟨i, hperm.mem_iff.mp hi, ?_⟩
    cases hf : f i with
    | ok d =>
      simp [fetch_mathematician_parallel, hf] at hm
      rw [hm.2]
    | error e =>
      simp [fetch_mathematician_parallel, hf] at hm
  · intro i hi r hfr htr
    rw [fetch_all_mathematicians_parallel, List.mem_filterMap]
    exact ⟨i, hperm.mem_iff.mpr hi, by simp [fetch_mathematician_parallel, hfr, htr]⟩
  · exact List.length_filterMap_le _ _
  · intro r hr
    rw [fetch_sequential, List.mem_filterMap] at hr
    obtain ⟨i, hi, hm⟩ := hr
    refine ⟨i, hi, ?_⟩
    cases hf : f i with
    | ok d =>
      simp [hf] at hm
      rw [hm]
    | error e =>
      simp [hf] at hm
  · intro i hi r hfr
    rw [fetch_sequential, List.mem_filterMap]
    exact ⟨i, hi, by simp [hfr]⟩

/-- C4 witness: with a fault injected for id `"X"` among `{A, X, B}`, the
records of `"A"` and `"B"` still appear, in the parallel mode (under a
completion order different from submission order) and in the sequential
fallback. -/
theorem c4_fetch_all_fault_isolation_witness :
    (Json.obj [("MGP_academic", .obj [("ID", .str "A")])]) ∈
        fetch_all_mathematicians_parallel c4_fetcher ["B", "X", "A"] ∧
    (Json.obj [("MGP_academic", .obj [("ID", .str "B")])]) ∈
        fetch_sequential c4_fetcher ["A", "X", "B"] :=
  ⟨(c4_fetch_all_fault_isolation c4_fetcher ["A", "X", "B"] ["B", "X", "A"] (by decide)).2.2.1
      "A" (by decide) (.obj [("MGP_academic", .obj [("ID", .str "A")])]) rfl rfl,
   (c4_fetch_all_fault_isolation c4_fetcher ["A", "X", "B"] ["B", "X", "A"] (by decide)).2.2.2.2.2
      "B" (by decide) (.obj [("MGP_academic", .obj [("ID", .str "B")])]) rfl⟩

/-- Helper for C8: a record whose contribution does not exceed the running
maximum leaves the accumulator unchanged (the comparison is strict). -/
theorem max_desc_step_skip (acc : Int × Option Json) (e : Json)
    (h : record_count e ≤ acc.1) : max_desc_step acc e = acc := by
  unfold max_desc_step
  by_cases hk : e.hasKey "MGP_academic" = true
  · rw [if_pos hk, if_neg]
    unfold record_count at h
    rw [if_pos hk] at h
    exact not_lt.mpr h
  · rw [if_neg hk]

/-- Helper for C8: a run of such records leaves the accumulator unchanged. -/
theorem max_desc_foldl_skip : ∀ (l : List Json) (acc : Int × Option Json),
    (∀ e ∈ l, record_count e ≤ acc.1) → l.foldl max_desc_step acc = acc := by
  intro l
  induction l with
  | nil => intro acc _; rfl
  | cons e t ih =>
    intro acc h
    rw [List.foldl_cons, max_desc_step_skip acc e (h e (by simp))]
    exact ih acc (fun x hx => h x (by simp [hx]))

/-- Helper for C8: one step either keeps the running maximum or moves it
to the current record's contribution. -/
theorem max_desc_step_fst (acc : Int × Option Json) (e : Json) :
    (max_desc_step acc e).1 = acc.1 ∨ (max_desc_step acc e).1 = record_count e := by
  unfold max_desc_step record_count
  split_ifs with h1 h2
  · right; rfl
  · left; rfl
  · left; rfl

/-- Helper for C8: the running maximum stays below any strict bound on
the accumulator and the remaining contributions. -/
theorem max_desc_foldl_fst_lt : ∀ (l : List Json) (acc : Int × Option Json) (B : Int),
    acc.1 < B → (∀ e ∈ l, record_count e < B) → (l.foldl max_desc_step acc).1 < B := by
  intro l
  induction l with
  | nil => intro acc B h _; exact h
  | cons e t ih =>
    intro acc B h hl
    rw [List.foldl_cons]
    apply ih
    · rcases max_desc_step_fst acc e with he | he
      · rw [he]; exact h
      · rw [he]; exact hl e (by simp)
    · intro x hx
      exact hl x (by simp [hx])

/-- Helper for C8: a strictly greater contribution updates both the
maximum and the retained record. -/
theorem max_desc_step_update (acc : Int × Option Json) (d : Json)
    (hk : d.hasKey "MGP_academic" = true) (h : acc.1 < record_count d) :
    max_desc_step acc d = (record_count d, some (d.getD "MGP_academic" .null)) := by
  unfold record_count at h
  rw [if_pos hk] at h
  unfold max_desc_step
  rw [if_pos hk, if_pos h]
  unfold record_count
  rw [if_pos hk]

/-- C8 (amended): whenever some record has a strictly positive
`descendant_count`, the scan identifies the first-encountered record
attaining the maximum (strictly-greater comparison, so earlier ties win);
with no strictly positive count the scan identifies no record at all. -/
theorem c8_max_descendants_first_max :
    ∀ (l₁ : List Json) (d : Json) (l₂ : List Json),
      d.hasKey "MGP_academic" = true →
      0 < record_count d →
      (∀ e ∈ l₁, record_count e < record_count d) →
      (∀ e ∈ l₂, record_count e ≤ record_count d) →
      max_descendants_scan (l₁ ++ d :: l₂) =
        (record_count d, some (d.getD "MGP_academic" .null)) := by
  intro l₁ d l₂ hk hpos h1 h2
  unfold max_descendants_scan
  rw [List.foldl_append, List.foldl_cons]
  rw [max_desc_step_update _ d hk (max_desc_foldl_fst_lt l₁ (0, none) (record_count d) hpos h1)]
  exact max_desc_foldl_skip l₂ _ (fun e he => h2 e he)

/-- C8 (counterexample): a non-empty record set whose only record has
`descendant_count` 0 — its maximum-count record exists, yet the scan
identifies none (`top_mathematician` stays `None`), because the initial
maximum is 0 and the comparison is strict. -/
theorem c8_zero_descendants_counterexample :
    c8_zero_record.hasKey "MGP_academic" = true ∧
    descendant_count_of c8_zero_record = 0 ∧
    max_descendants_scan [c8_zero_record] = (0, none) :=
  ⟨rfl, rfl, rfl⟩

/-- C8 witness: the first-encountered record of maximal positive count is
identified, a later tie notwithstanding. -/
theorem c8_max_descendants_first_max_witness :
    max_descendants_scan [c8_zero_record, c8_top_record, c8_tied_record] =
      (record_count c8_top_record, some (c8_top_record.getD "MGP_academic" .null)) :=
  c8_max_descendants_first_max [c8_zero_record] c8_top_record [c8_tied_record]
    rfl (by decide) (by decide) (by decide)

/-- Helper for C1: implicit node insertion never touches the edge list. -/
theorem addNode_edges (g : DiGraph) (v : Json) : (addNode g v).edges = g.edges := by
  unfold addNode
  split
  · rfl
  · rfl

/-- Helper for C1: the node list after node insertion. -/
theorem addNode_nodes (g : DiGraph) (v : Json) :
    (addNode g v).nodes = if v ∈ g.nodes then g.nodes else g.nodes ++ [v] := by
  unfold addNode
  by_cases hv : v ∈ g.nodes
  · rw [if_pos hv, if_pos hv]
  · rw [if_neg hv, if_neg hv]

/-- Helper for C1: node insertion adds at most the inserted value. -/
theorem mem_addNode_nodes (g : DiGraph) (v w : Json)
    (h : w ∈ (addNode g v).nodes) : w ∈ g.nodes ∨ w = v := by
  rw [addNode_nodes] at h
  split at h
  · exact Or.inl h
  · rcases List.mem_append.mp h with h1 | h1
    · exact Or.inl h1
    · exact Or.inr (by simpa using h1)

/-- Helper for C1: a successful `add_edge` had two non-`None` endpoints. -/
theorem add_edge_ok_not_null (g g' : DiGraph) (u v : Json)
    (h : add_edge g u v = .ok g') : ¬ u = Json.null ∧ ¬ v = Json.null := by
  unfold add_edge at h
  by_cases hnull : u = Json.null ∨ v = Json.null
  · rw [if_pos hnull] at h
    exact Except.noConfusion h
  · exact ⟨fun hu => hnull (Or.inl hu), fun hv => hnull (Or.inr hv)⟩

/-- Helper for C1: the edge list after a successful `add_edge`. -/
theorem add_edge_ok_edges (g g' : DiGraph) (u v : Json)
    (h : add_edge g u v = .ok g') :
    g'.edges = if (u, v) ∈ g.edges then g.edges else g.edges ++ [(u, v)] := by
  unfold add_edge at h
  by_cases hnull : u = Json.null ∨ v = Json.null
  · rw [if_pos hnull] at h
    exact Except.noConfusion h
  · rw [if_neg hnull] at h
    injection h with h2
    subst h2
    by_cases hmem : (u, v) ∈ g.edges
    · rw [if_pos hmem, if_pos hmem, addNode_edges, addNode_edges]
    · rw [if_neg hmem, if_neg hmem]

/-- Helper for C1: the node list after a successful `add_edge`. -/
theorem add_edge_ok_nodes (g g' : DiGraph) (u v : Json)
    (h : add_edge g u v = .ok g') :
    g'.nodes = (addNode (addNode g u) v).nodes := by
  unfold add_edge at h
  by_cases hnull : u = Json.null ∨ v = Json.null
  · rw [if_pos hnull] at h
    exact Except.noConfusion h
  · rw [if_neg hnull] at h
    injection h with h2
    subst h2
    by_cases hmem : (u, v) ∈ g.edges
    · rw [if_pos hmem]
    · rw [if_neg hmem]

/-- Helper for C1: a successful `add_edge` inserts its edge. -/
theorem add_edge_mem_ok (g g' : DiGraph) (u v : Json)
    (h : add_edge g u v = .ok g') : (u, v) ∈ g'.edges := by
  rw [add_edge_ok_edges g g' u v h]
  split
  · assumption
  · exact List.mem_append_right _ (by simp)

/-- Helper for C1: a successful `add_edge` keeps existing edges. -/
theorem add_edge_mono_ok (g g' : DiGraph) (u v : Json) (e : Json × Json)
    (h : add_edge g u v = .ok g') (he : e ∈ g.edges) : e ∈ g'.edges := by
  rw [add_edge_ok_edges g g' u v h]
  split
  · exact he
  · exact List.mem_append_left _ he

/-- Helper for C1: a successful `add_edge` never introduces a `None`
node (networkx would have raised instead). -/
theorem add_edge_null_free (g g' : DiGraph) (u v : Json)
    (h : add_edge g u v = .ok g') (hn : Json.null ∉ g.nodes) :
    Json.null ∉ g'.nodes := by
  obtain ⟨hu, hv⟩ := add_edge_ok_not_null g g' u v h
  rw [add_edge_ok_nodes g g' u v h]
  intro hmem
  rcases mem_addNode_nodes _ v _ hmem with h1 | h1
  · rcases mem_addNode_nodes _ u _ h1 with h2 | h2
    · exact hn h2
    · exact hu h2.symm
  · exact hv h1.symm

/-- Helper for C1: a successful inner advisor loop keeps existing edges. -/
theorem add_edges_loop_mono : ∀ (links : List (String × Json)) (sid : Json)
    (g g' : DiGraph) (e : Json × Json),
    add_edges_loop sid links g = .ok g' → e ∈ g.edges → e ∈ g'.edges := by
  intro links
  induction links with
  | nil =>
    intro sid g g' e h he
    injection h with h2
    subst h2
    exact he
  | cons a t ih =>
    intro sid g g' e h he
    rw [add_edges_loop] at h
    cases hstep : add_edge g (.str a.1) sid with
    | ok g1 =>
      rw [hstep] at h
      exact ih sid g1 g' e h (add_edge_mono_ok g g1 _ sid e hstep he)
    | error err =>
      rw [hstep] at h
      exact Except.noConfusion h

/-- Helper for C1: a successful inner advisor loop adds one edge per
link. -/
theorem add_edges_loop_mem : ∀ (links : List (String × Json)) (sid : Json)
    (g g' : DiGraph) (p : String × Json), p ∈ links →
    add_edges_loop sid links g = .ok g' → (Json.str p.1, sid) ∈ g'.edges := by
  intro links
  induction links with
  | nil => intro sid g g' p hp _; simp at hp
  | cons a t ih =>
    intro sid g g' p hp h
    rw [add_edges_loop] at h
    cases hstep : add_edge g (.str a.1) sid with
    | ok g1 =>
      rw [hstep] at h
      rcases List.mem_cons.mp hp with rfl | hpt
      · exact add_edges_loop_mono t sid g1 g' _ h (add_edge_mem_ok g g1 _ sid hstep)
      · exact ih sid g1 g' p hpt h
    | error err =>
      rw [hstep] at h
      exact Except.noConfusion h

/-- Helper for C1: a successful inner advisor loop stays `None`-free. -/
theorem add_edges_loop_null_free : ∀ (links : List (String × Json)) (sid : Json)
    (g g' : DiGraph), add_edges_loop sid links g = .ok g' →
    Json.null ∉ g.nodes → Json.null ∉ g'.nodes := by
  intro links
  induction links with
  | nil =>
    intro sid g g' h hn
    injection h with h2
    subst h2
    exact hn
  | cons a t ih =>
    intro sid g g' h hn
    rw [add_edges_loop] at h
    cases hstep : add_edge g (.str a.1) sid with
    | ok g1 =>
      rw [hstep] at h
      exact ih sid g1 g' h (add_edge_null_free g g1 _ sid hstep hn)
    | error err =>
      rw [hstep] at h
      exact Except.noConfusion h

/-- Helper for C1: with any advisor link present, a `None` subject id
makes the inner loop raise `ValueError` at its first `add_edge`. -/
theorem add_edges_loop_null_sid : ∀ (links : List (String × Json)) (g : DiGraph),
    links ≠ [] → add_edges_loop Json.null links g = .error .valueError := by
  intro links g hne
  cases links with
  | nil => exact absurd rfl hne
  | cons a t =>
    rw [add_edges_loop]
    have hstep : add_edge g (.str a.1) Json.null = .error .valueError := by
      unfold add_edge
      rw [if_pos (Or.inr rfl)]
    rw [hstep]

/-- Helper for C1: a successful record step keeps existing edges. -/
theorem build_step_mono (g g' : DiGraph) (data : Json) (e : Json × Json)
    (h : build_step g data = .ok g') (he : e ∈ g.edges) : e ∈ g'.edges := by
  unfold build_step at h
  split at h
  · exact add_edges_loop_mono _ _ g g' e h he
  · injection h with h2
    subst h2
    exact he

/-- Helper for C1: a successful record step adds each extracted link's
edge. -/
theorem build_step_mem (g g' : DiGraph) (data : Json) (p : String × Json)
    (hk : data.hasKey "MGP_academic" = true) (hp : p ∈ extract_advisor_info data)
    (h : build_step g data = .ok g') : (Json.str p.1, subject_id data) ∈ g'.edges := by
  unfold build_step at h
  rw [if_pos hk] at h
  exact add_edges_loop_mem _ _ g g' p hp h

/-- Helper for C1: a successful record step stays `None`-free. -/
theorem build_step_null_free (g g' : DiGraph) (data : Json)
    (h : build_step g data = .ok g') (hn : Json.null ∉ g.nodes) :
    Json.null ∉ g'.nodes := by
  unfold build_step at h
  split at h
  · exact add_edges_loop_null_free _ _ g g' h hn
  · injection h with h2
    subst h2
    exact hn

/-- Helper for C1: a successful record loop keeps existing edges. -/
theorem build_loop_mono : ∀ (records : List Json) (g g' : DiGraph) (e : Json × Json),
    build_loop records g = .ok g' → e ∈ g.edges → e ∈ g'.edges := by
  intro records
  induction records with
  | nil =>
    intro g g' e h he
    injection h with h2
    subst h2
    exact he
  | cons d t ih =>
    intro g g' e h he
    rw [build_loop] at h
    cases hstep : build_step g d with
    | ok g1 =>
      rw [hstep] at h
      exact ih g1 g' e h (build_step_mono g g1 d e hstep he)
    | error err =>
      rw [hstep] at h
      exact Except.noConfusion h

/-- Helper for C1: a successful record loop stays `None`-free. -/
theorem build_loop_null_free : ∀ (records : List Json) (g g' : DiGraph),
    build_loop records g = .ok g' → Json.null ∉ g.nodes → Json.null ∉ g'.nodes := by
  intro records
  induction records with
  | nil =>
    intro g g' h hn
    injection h with h2
    subst h2
    exact hn
  | cons d t ih =>
    intro g g' h hn
    rw [build_loop] at h
    cases hstep : build_step g d with
    | ok g1 =>
      rw [hstep] at h
      exact ih g1 g' h (build_step_null_free g g1 d hstep hn)
    | error err =>
      rw [hstep] at h
      exact Except.noConfusion h

/-- Helper for C1: the record loop splits over an append. -/
theorem build_loop_append : ∀ (s t : List Json) (g : DiGraph),
    build_loop (s ++ t) g =
      match build_loop s g with
      | .ok g1 => build_loop t g1
      | .error e => .error e := by
  intro s
  induction s with
  | nil => intro t g; rfl
  | cons d s2 ih =>
    intro t g
    rw [List.cons_append, build_loop, build_loop]
    cases hstep : build_step g d with
    | ok g1 => exact ih t g1
    | error err => rfl

/-- C1 (counterexample): the claimed skip does not exist.  An
empty-string advisor id is accepted by networkx: the edge is added and
the empty-string endpoint becomes a graph node.  And a record whose
subject id is absent is not skipped either: `G.add_edge('17', None)`
raises `ValueError`, aborting the build. -/
theorem c1_no_skip_counterexample :
    (∃ g : DiGraph, build_graph [c1_empty_id_record] = .ok g ∧
        Json.str "" ∈ g.nodes ∧ (Json.str "", Json.str "S") ∈ g.edges) ∧
    build_graph [c1_record] = .error .valueError :=
  ⟨⟨_, rfl, by decide, by decide⟩, rfl⟩

/-- C1 (amended): the graph loop performs no skip check.  In every build
that completes, each record's extracted advisor links are all present as
edges (empty-string endpoints included), and the graph contains no
`None` node only because networkx's `add_edge` raises
`ValueError("None cannot be a node")` instead — a record with an advisor
link and an absent subject id aborts the step (and hence the run) rather
than being skipped. -/
theorem c1_graph_loop_behavior :
    (∀ (records : List Json) (g : DiGraph) (data : Json) (p : String × Json),
        build_graph records = .ok g → data ∈ records →
        data.hasKey "MGP_academic" = true → p ∈ extract_advisor_info data →
        (Json.str p.1, subject_id data) ∈ g.edges) ∧
    (∀ (records : List Json) (g : DiGraph),
        build_graph records = .ok g → Json.null ∉ g.nodes) ∧
    (∀ (g : DiGraph) (data : Json),
        data.hasKey "MGP_academic" = true → extract_advisor_info data ≠ [] →
        subject_id data = Json.null → build_step g data = .error .valueError) := by
  refine ⟨?_, ?_, ?_⟩
  · intro records g data p hok hmem hk hp
    obtain ⟨s, t, rfl⟩ := List.append_of_mem hmem
    rw [build_graph, build_loop_append] at hok
    cases hs : build_loop s DiGraph.empty with
    | ok g1 =>
      simp only [hs] at hok
      rw [build_loop] at hok
      cases hstep : build_step g1 data with
      | ok g2 =>
        simp only [hstep] at hok
        exact build_loop_mono t g2 g _ hok (build_step_mem g1 g2 data p hk hp hstep)
      | error err =>
        simp only [hstep] at hok
        exact Except.noConfusion hok
    | error err =>
      simp only [hs] at hok
      exact Except.noConfusion hok
  · intro records g hok
    exact build_loop_null_free records DiGraph.empty g hok (by simp [DiGraph.empty])
  · intro g data hk hlinks hsid
    unfold build_step
    rw [if_pos hk, hsid]
    exact add_edges_loop_null_sid _ g hlinks

/-- C1 witness: a well-formed record builds successfully and its advisor
edge is present. -/
theorem c1_graph_loop_behavior_witness :
    ∃ g : DiGraph, build_graph [c1_record_with_id] = .ok g ∧
      (Json.str "17", subject_id c1_record_with_id) ∈ g.edges :=
  ⟨_, rfl, c1_graph_loop_behavior.1 [c1_record_with_id] _ c1_record_with_id ("17", .str "Alice")
      rfl (by simp) rfl (by decide)⟩

/-- C3: in the spec's five-record scenario the build succeeds, yet the
fully disconnected record E never becomes a graph node (nodes are created
only by edge insertion), so the isolated-node count is 0, not 1 —
although `isolated_nodes` does return exactly the degree-zero nodes of
the undirected projection. -/
theorem c3_isolated_nodes_scenario :
    (∃ g : DiGraph, build_graph scenario_records = .ok g ∧
        (isolated_nodes g).length = 0 ∧ Json.str "E" ∉ g.nodes) ∧
    (∀ (g : DiGraph) (v : Json),
        v ∈ isolated_nodes g ↔ v ∈ g.nodes ∧ undirected_degree g v = 0) := by
  refine ⟨⟨_, rfl, by decide, by decide⟩, ?_⟩
  intro g v
  rw [isolated_nodes, List.mem_filter, undirected_degree]
  simp [List.countP_eq_zero, List.any_eq_false]

/-- Helper for C7: `find?` with a key predicate commutes with a map that
preserves keys. -/
theorem find?_map_fst_preserving {β : Type} (c : List (String × β)) (k' : String)
    (f : (String × β) → (String × β)) (hf : ∀ p, (f p).1 = p.1) :
    (c.map f).find? (fun p => decide (p.1 = k')) =
      (c.find? (fun p => decide (p.1 = k'))).map f := by
  rw [List.find?_map]
  have hpred : ((fun p : String × β => decide (p.1 = k')) ∘ f) =
      (fun p : String × β => decide (p.1 = k')) := by
    funext p
    simp [Function.comp, hf p]
  rw [hpred]

/-- Helper for C7: a key reported present by `any` is found by `find?`,
at an entry carrying that key. -/
theorem find?_mem_of_any {β : Type} (c : List (String × β)) (k : String)
    (h : c.any (fun p => decide (p.1 = k)) = true) :
    ∃ q, c.find? (fun p => decide (p.1 = k)) = some q ∧ q.1 = k := by
  have hs : (c.find? (fun p => decide (p.1 = k))).isSome := by
    rw [List.find?_isSome]
    simpa [List.any_eq_true] using h
  obtain ⟨q, hq⟩ := Option.isSome_iff_exists.mp hs
  exact ⟨q, hq, by simpa using List.find?_some hq⟩

/-- Helper for C7: a key absent per `any` is not found by `find?`. -/
theorem find?_none_of_not_any {β : Type} (c : List (String × β)) (k : String)
    (h : ¬ c.any (fun p => decide (p.1 = k)) = true) :
    c.find? (fun p => decide (p.1 = k)) = none := by
  rw [List.find?_eq_none]
  intro p hp hdec
  apply h
  rw [List.any_eq_true]
  exact ⟨p, hp, hdec⟩

/-- Helper for C7: one `Counter` increment raises exactly the incremented
key's count by one. -/
theorem counter_get_add (c : List (String × Nat)) (k k' : String) :
    counter_get (counter_add c k) k' = counter_get c k' + if k' = k then 1 else 0 := by
  unfold counter_add counter_get
  by_cases hany : c.any (fun p => decide (p.1 = k)) = true
  · rw [if_pos hany,
      find?_map_fst_preserving _ _ _ (fun p => by by_cases hp : p.1 = k <;> simp [hp])]
    by_cases hk : k' = k
    · subst hk
      obtain ⟨q, hq, hq1⟩ := find?_mem_of_any c k' hany
      rw [hq]
      simp [hq1]
    · cases hq : c.find? (fun p => decide (p.1 = k')) with
      | none => simp [hk]
      | some q =>
        have hq1 : q.1 = k' := by simpa using List.find?_some hq
        have hqk : ¬ q.1 = k := by rw [hq1]; exact hk
        simp [hqk, hk]
  · rw [if_neg hany, List.find?_append]
    by_cases hk : k' = k
    · subst hk
      rw [find?_none_of_not_any c k' hany]
      simp
    · have hsing : List.find? (fun p : String × Nat => decide (p.1 = k')) [(k, 1)] = none := by
        rw [List.find?_eq_none]
        intro p hp
        rw [List.mem_singleton] at hp
        subst hp
        simpa using fun h => hk h.symm
      rw [hsing, Option.or_none]
      simp [hk]

/-- Helper for C7: the count of a key after folding a link list is its
number of occurrences among the links, plus the initial count. -/
theorem counter_fold_get :
    ∀ (links : List (String × Json)) (c : List (String × Nat)) (k : String),
      counter_get (links.foldl (fun c p => counter_add c p.1) c) k
        = counter_get c k + links.countP (fun p => decide (p.1 = k)) := by
  intro links
  induction links with
  | nil => intro c k; simp
  | cons p t ih =>
    intro c k
    rw [List.foldl_cons, ih, counter_get_add, List.countP_cons]
    by_cases hk : k = p.1
    · simp only [hk, if_pos rfl, List.countP_cons, decide_eq_true_eq, if_true]
      omega
    · have hk2 : ¬ p.1 = k := fun h => hk h.symm
      simp [hk, hk2]

/-- Helper for C7: one dict assignment overwrites exactly the assigned
key's value. -/
theorem names_get_add (m : List (String × Json)) (k : String) (v : Json) (k' : String) :
    names_get (names_add m k v) k' = if k' = k then some v else names_get m k' := by
  unfold names_add names_get
  by_cases hany : m.any (fun p => decide (p.1 = k)) = true
  · rw [if_pos hany,
      find?_map_fst_preserving _ _ _ (fun p => by by_cases hp : p.1 = k <;> simp [hp])]
    by_cases hk : k' = k
    · subst hk
      obtain ⟨q, hq, hq1⟩ := find?_mem_of_any m k' hany
      rw [hq]
      simp [hq1]
    · cases hq : m.find? (fun p => decide (p.1 = k')) with
      | none => simp [hk]
      | some q =>
        have hq1 : q.1 = k' := by simpa using List.find?_some hq
        have hqk : ¬ q.1 = k := by rw [hq1]; exact hk
        simp [hqk, hk]
  · rw [if_neg hany, List.find?_append]
    by_cases hk : k' = k
    · subst hk
      rw [find?_none_of_not_any m k' hany]
      simp
    · have hsing : List.find? (fun p : String × Json => decide (p.1 = k')) [(k, v)] = none := by
        rw [List.find?_eq_none]
        intro p hp
        rw [List.mem_singleton] at hp
        subst hp
        simpa using fun h => hk h.symm
      rw [hsing, Option.or_none]
      simp [hk]

/-- Helper for C7: `getLast?` of a cons, via `Option.or`. -/
theorem getLast?_cons_or {α : Type} (a : α) (l : List α) :
    (a :: l).getLast? = l.getLast?.or (some a) := by
  induction l generalizing a with
  | nil => rfl
  | cons b t ih => simp [List.getLast?_cons_cons, ih, Option.or_assoc]

/-- Helper for C7: after folding a link list, a key's stored name is the
name of its last occurrence (falling back to the initial dict). -/
theorem names_fold_get :
    ∀ (links : List (String × Json)) (m : List (String × Json)) (k : String),
      names_get (links.foldl (fun m p => names_add m p.1 p.2) m) k
        = (((links.filter (fun p => decide (p.1 = k))).map Prod.snd).getLast?).or
            (names_get m k) := by
  intro links
  induction links with
  | nil => intro m k; simp
  | cons p t ih =>
    intro m k
    rw [List.foldl_cons, ih, names_get_add]
    by_cases hk : p.1 = k
    · rw [List.filter_cons_of_pos (by simp [hk])]
      rw [List.map_cons, getLast?_cons_or, Option.or_assoc]
      simp [hk.symm]
    · rw [List.filter_cons_of_neg (by simp [hk])]
      have hk2 : ¬ k = p.1 := fun h => hk h.symm
      simp [hk2]

/-- Helper for C7: one `Counter` increment keeps the key list, appending
the key only when new. -/
theorem counter_add_keys (c : List (String × Nat)) (k : String) :
    (counter_add c k).map Prod.fst =
      if k ∈ c.map Prod.fst then c.map Prod.fst else c.map Prod.fst ++ [k] := by
  unfold counter_add
  by_cases hany : c.any (fun p => decide (p.1 = k)) = true
  · rw [if_pos hany]
    have hmem : k ∈ c.map Prod.fst := by
      rw [List.any_eq_true] at hany
      obtain ⟨p, hp, hpk⟩ := hany
      rw [List.mem_map]
      exact ⟨p, hp, by simpa using hpk⟩
    rw [if_pos hmem, List.map_map]
    exact List.map_congr_left (fun p hp => by
      by_cases hpk : p.1 = k <;> simp [Function.comp, hpk])
  · rw [if_neg hany]
    have hmem : k ∉ c.map Prod.fst := by
      intro hkm
      apply hany
      rw [List.any_eq_true]
      obtain ⟨p, hp, hpk⟩ := List.mem_map.mp hkm
      exact ⟨p, hp, by simp [hpk]⟩
    rw [if_neg hmem, List.map_append]
    rfl

/-- Helper for C7: the `Counter` key list is the first-seen fold of the
link keys. -/
theorem counter_fold_keys :
    ∀ (links : List (String × Json)) (c : List (String × Nat)),
      ((links.foldl (fun c p => counter_add c p.1) c).map Prod.fst)
        = (links.map Prod.fst).foldl
            (fun acc k => if k ∈ acc then acc else acc ++ [k]) (c.map Prod.fst) := by
  intro links
  induction links with
  | nil => intro c; rfl
  | cons p t ih =>
    intro c
    rw [List.foldl_cons, ih, counter_add_keys, List.map_cons, List.foldl_cons]

/-- Helper for C7: `Counter` keys stay duplicate-free. -/
theorem counter_add_keys_nodup (c : List (String × Nat)) (k : String)
    (h : (c.map Prod.fst).Nodup) : ((counter_add c k).map Prod.fst).Nodup := by
  by_cases hmem : k ∈ c.map Prod.fst
  · rw [counter_add_keys, if_pos hmem]
    exact h
  · rw [counter_add_keys, if_neg hmem]
    rw [List.nodup_append]
    exact ⟨h, List.nodup_singleton k, by simpa using hmem⟩

/-- Helper for C7: folding any link list keeps `Counter` keys
duplicate-free. -/
theorem counter_fold_keys_nodup :
    ∀ (links : List (String × Json)) (c : List (String × Nat)),
      (c.map Prod.fst).Nodup →
      ((links.foldl (fun c p => counter_add c p.1) c).map Prod.fst).Nodup := by
  intro links
  induction links with
  | nil => intro c h; exact h
  | cons p t ih =>
    intro c h
    rw [List.foldl_cons]
    exact ih _ (counter_add_keys_nodup c p.1 h)

/-- Helper for C7: the paired fold of counts and names splits into its
two component folds. -/
theorem stats_pair_fold :
    ∀ (links : List (String × Json)) (acc : List (String × Nat) × List (String × Json)),
      links.foldl (fun acc p => (counter_add acc.1 p.1, names_add acc.2 p.1 p.2)) acc
        = (links.foldl (fun c p => counter_add c p.1) acc.1,
           links.foldl (fun m p => names_add m p.1 p.2) acc.2) := by
  intro links
  induction links with
  | nil => intro acc; rfl
  | cons p t ih =>
    intro acc
    rw [List.foldl_cons, ih, List.foldl_cons, List.foldl_cons]

/-- Helper for C7: the per-record double loop equals one fold over the
flattened link list. -/
theorem advisor_stats_flat :
    ∀ (records : List Json) (acc : List (String × Nat) × List (String × Json)),
      records.foldl (fun acc data =>
          (extract_advisor_info data).foldl
            (fun acc p => (counter_add acc.1 p.1, names_add acc.2 p.1 p.2)) acc) acc
        = (records.flatMap extract_advisor_info).foldl
            (fun acc p => (counter_add acc.1 p.1, names_add acc.2 p.1 p.2)) acc := by
  intro records
  induction records with
  | nil => intro acc; rfl
  | cons d t ih =>
    intro acc
    rw [List.foldl_cons, ih, List.flatMap_cons, List.foldl_append]

/-- Helper for C7: `advisor_stats` as the two flat folds. -/
theorem advisor_stats_eq (records : List Json) :
    advisor_stats records =
      ((all_advisor_links records).foldl (fun c p => counter_add c p.1) [],
       (all_advisor_links records).foldl (fun m p => names_add m p.1 p.2) []) := by
  unfold advisor_stats all_advisor_links
  rw [advisor_stats_flat, stats_pair_fold]

/-- Helper for C7: a pair that is an ordered sublist of a duplicate-free
list stays an ordered sublist of any `take` that still contains the
second component. -/
theorem pair_sublist_take {α : Type} (l : List α) :
    ∀ (n : Nat) (a b : α), l.Nodup → [a, b].Sublist l → b ∈ l.take n →
      [a, b].Sublist (l.take n) := by
  induction l with
  | nil => intro n a b _ hs _; simp at hs
  | cons c t ih =>
    intro n a b hnd hs hb
    cases n with
    | zero => simp at hb
    | succ m =>
      rw [List.take_succ_cons] at hb ⊢
      rw [List.nodup_cons] at hnd
      obtain ⟨hc, hndt⟩ := hnd
      cases hs with
      | cons _ h =>
        rcases List.mem_cons.mp hb with rfl | hbt
        · exact absurd (h.subset (by simp)) hc
        · exact (ih m a b hndt h hbt).cons c
      | cons₂ _ h =>
        rcases List.mem_cons.mp hb with rfl | hbt
        · exact absurd (h.subset (by simp)) hc
        · exact List.Sublist.cons₂ c (List.singleton_sublist.mpr hbt)

/-- C7: the advisor leaderboard counts one increment per advisor-link
occurrence, stores the last-seen display name per id, keeps the counter
keys in first-encounter order, and `most_common` reports the top N in
descending count order with ties keeping the counter's (first-encounter)
order. -/
theorem c7_advisor_leaderboard :
    ∀ (records : List Json) (n : Nat),
      (∀ k : String, counter_get (advisor_stats records).1 k =
          (all_advisor_links records).countP (fun p => decide (p.1 = k))) ∧
      (∀ k : String, names_get (advisor_stats records).2 k =
          (((all_advisor_links records).filter (fun p => decide (p.1 = k))).map
              Prod.snd).getLast?) ∧
      (advisor_stats records).1.map Prod.fst =
          first_seen_keys ((all_advisor_links records).map Prod.fst) ∧
      List.Pairwise cmpCount (most_common (advisor_stats records).1 n) ∧
      (∀ x y : String × Nat, [x, y].Sublist (advisor_stats records).1 → cmpCount x y →
          y ∈ most_common (advisor_stats records).1 n →
          [x, y].Sublist (most_common (advisor_stats records).1 n)) := by
  intro records n
  refine ⟨?_, ?_, ?_, ?_, ?_⟩
  · intro k
    rw [advisor_stats_eq]
    exact (counter_fold_get _ [] k).trans (by simp [counter_get])
  · intro k
    rw [advisor_stats_eq]
    exact (names_fold_get _ [] k).trans (by simp [names_get])
  · rw [advisor_stats_eq]
    exact counter_fold_keys _ []
  · exact List.Pairwise.sublist (List.take_sublist n _) (List.sorted_insertionSort cmpCount _)
  · intro x y hxy hr hy
    have hnd : (List.insertionSort cmpCount (advisor_stats records).1).Nodup := by
      have hnd0 : ((advisor_stats records).1.map Prod.fst).Nodup := by
        rw [advisor_stats_eq]
        exact counter_fold_keys_nodup _ [] (by simp)
      exact ((List.perm_insertionSort cmpCount _).nodup_iff).mpr (hnd0.of_map Prod.fst)
    have hs : [x, y].Sublist (List.insertionSort cmpCount (advisor_stats records).1) :=
      List.pair_sublist_insertionSort hr hxy
    exact pair_sublist_take _ n x y hnd hs hy

/-- C7 witness: advisors X and Y with three occurrences each, X seen
first — X is counted 3 and listed before Y in the top 10. -/
theorem c7_advisor_leaderboard_witness :
    counter_get (advisor_stats c7_records).1 "X" = 3 ∧
    [("X", 3), ("Y", 3)].Sublist (most_common (advisor_stats c7_records).1 10) :=
  ⟨((c7_advisor_leaderboard c7_records 10).1 "X").trans (by decide),
   (c7_advisor_leaderboard c7_records 10).2.2.2.2 ("X", 3) ("Y", 3)
     (List.Sublist.refl _) (by decide) (by decide)⟩

end MathGenealogy
